import Mathlib

/-!
Verification development for the retirement-calculator engine of
`calculadora-aposentadoria`.  The numerical engine lives in `src/App.tsx`
(two near-duplicate variants separated by a document marker; we call them
variant A, lines 1-811, and variant B, lines 812-1127) and in a third
unnamed variant (`part_000`).  JavaScript `number` arithmetic is modelled
over `ℚ` where only field operations and comparisons occur, and over `ℝ`
where `Math.pow` with fractional exponent or `Math.log` is involved.  The
float `Infinity` that some functions return is modelled by `Option`
(`none` = infinite).  Decimal literals such as `1e-9` are modelled by the
exact rationals they denote.
-/

/-- A one-time contribution, `type Lump = { id, month, amount }` of
variant A (the `id` field is UI bookkeeping and carries no numeric
meaning, so it is omitted).  `month` is a raw user-supplied number, hence
a rational here; the engine floors it before use. -/
structure Lump where
  month : ℚ
  amount : ℚ
deriving DecidableEq, Repr

/-- The month key under which `projectToRetirement` / `projectFullTo100`
(variant A) file a lump: `Math.max(0, Math.min(months, Math.floor(ls.month)))`. -/
def clampedMonth (months : ℕ) (ls : Lump) : ℤ :=
  max 0 (min (months : ℤ) ⌊ls.month⌋)

/-- `byMonth.get(k) || 0` for the accumulation projections of variant A:
the total amount of all lumps filed under key `k` (the `Map` built in
`projectToRetirement` / `projectFullTo100` sums amounts per key). -/
def lumpAt (months : ℕ) (lumps : List Lump) (k : ℕ) : ℚ :=
  ((lumps.filter (fun ls => clampedMonth months ls = (k : ℤ))).map Lump.amount).sum

/-- The wealth recorded for month `t` by variant A's `projectToRetirement`:
`W` starts at `currentWealth`; after recording month `t` the loop executes
`W = W * (1 + monthlyRealReturn) + monthlySaving + (byMonth.get(t+1) || 0)`. -/
def retWealth (currentWealth monthlySaving monthlyRealReturn : ℚ)
    (months : ℕ) (lumps : List Lump) : ℕ → ℚ
  | 0 => currentWealth
  | t + 1 =>
      retWealth currentWealth monthlySaving monthlyRealReturn months lumps t
          * (1 + monthlyRealReturn) + monthlySaving + lumpAt months lumps (t + 1)

/-- Variant A's `projectToRetirement`: the list of rows `{m: t, wealth: W}`
for `t = 0 .. months`, each recording the pre-update wealth. -/
def projectToRetirement (currentWealth monthlySaving : ℚ) (months : ℕ)
    (monthlyRealReturn : ℚ) (lumps : List Lump) : List (ℕ × ℚ) :=
  (List.range (months + 1)).map
    (fun t => (t, retWealth currentWealth monthlySaving monthlyRealReturn months lumps t))

/-- The internal (unclamped) wealth of variant A's `projectFullTo100` at
month `t`: accumulation regime `W*(1+monthlyAccumReturn)+monthlySaving+lump`
while `t < monthsToRetire`, then decumulation `W*(1+monthlyRetireReturn)-monthlySpend`.
The lump schedule is the same `Map` as in `projectToRetirement`, clamped to
`monthsToRetire`. -/
def fullWealth (currentWealth monthlySaving monthlySpend monthlyAccumReturn
    monthlyRetireReturn : ℚ) (monthsToRetire : ℕ) (lumps : List Lump) : ℕ → ℚ
  | 0 => currentWealth
  | t + 1 =>
      let W := fullWealth currentWealth monthlySaving monthlySpend monthlyAccumReturn
        monthlyRetireReturn monthsToRetire lumps t
      if t < monthsToRetire then
        W * (1 + monthlyAccumReturn) + monthlySaving + lumpAt monthsToRetire lumps (t + 1)
      else
        W * (1 + monthlyRetireReturn) - monthlySpend

/-- Variant A's `projectFullTo100` rows: the stored trajectory clamps each
recorded value at zero (`Math.max(0, W)`) for display, while the running
wealth stays unclamped. -/
def projectFullTo100 (age : ℤ) (currentWealth monthlySaving monthlySpend
    monthlyAccumReturn monthlyRetireReturn : ℚ) (monthsToRetire : ℕ)
    (lumps : List Lump) : List (ℕ × ℚ) :=
  (List.range (((100 - age) * 12).toNat + 1)).map
    (fun t => (t, max 0 (fullWealth currentWealth monthlySaving monthlySpend
      monthlyAccumReturn monthlyRetireReturn monthsToRetire lumps t)))

/-- Variant A's `wealthAtRetire`:
`accumulation[accumulation.length - 1]?.wealth ?? currentWealth`, i.e. the
last recorded accumulation row. -/
def wealthAtRetire (currentWealth monthlySaving monthlyRealReturn : ℚ)
    (months : ℕ) (lumps : List Lump) : ℚ :=
  retWealth currentWealth monthlySaving monthlyRealReturn months lumps months

/-- Variant A's `sustainableMonthlySWR = wealthAtRetire * monthlyRetire`. -/
def sustainableMonthlySWR (wealthAtRetire monthlyRetire : ℚ) : ℚ :=
  wealthAtRetire * monthlyRetire

/-- Variant A's perpetuity flag: `hasPerpetuity = sustainableMonthlySWR >= monthlySpend`. -/
def hasPerpetuity (wealthAtRetire monthlyRetire monthlySpend : ℚ) : Prop :=
  monthlySpend ≤ sustainableMonthlySWR wealthAtRetire monthlyRetire

instance (w r s : ℚ) : Decidable (hasPerpetuity w r s) := by
  unfold hasPerpetuity; infer_instance

/-- Variant B's target formula (line 927):
`targetWealthBySWR = (annualSpend * 100) / swrPct`. -/
def targetWealthBySWR (annualSpend swrPct : ℚ) : ℚ :=
  annualSpend * 100 / swrPct

/-- The `part_000` variant's target:
`targetWealth = monthlySpend / Math.max(mRetire, 1e-10)` (the `safe` NaN
fallback wrapper never fires on these rational inputs).  The monthly rate
`mRetire` is taken as a parameter. -/
def targetWealthP (monthlySpend mRetire : ℚ) : ℚ :=
  monthlySpend / max mRetire (1 / 10 ^ 10)

/-- The `part_000` variant's perpetuity flag (line 98):
`hasPerpetuity = wealthAtRetire >= targetWealth` — a target-reach test,
not a yield test. -/
def hasPerpetuityV (wealthAtRetire targetWealth : ℚ) : Prop :=
  targetWealth ≤ wealthAtRetire

instance (w t : ℚ) : Decidable (hasPerpetuityV w t) := by
  unfold hasPerpetuityV; infer_instance

/-- Variant A's future-value annuity factor in `extraMonthlyNeeded`:
`monthlyAccum > 0 ? (Math.pow(1 + monthlyAccum, monthsToRetire) - 1) / monthlyAccum
: monthsToRetire`. -/
def annuityFactor (monthlyAccum : ℚ) (monthsToRetire : ℕ) : ℚ :=
  if 0 < monthlyAccum then ((1 + monthlyAccum) ^ monthsToRetire - 1) / monthlyAccum
  else (monthsToRetire : ℚ)

/-- Variant A's `extraMonthlyNeeded` as a function of the gap
`targetWealth - wealthAtRetire`:
`gap > 0 && monthsToRetire > 0 ? gap / Math.max(annuityFactor, 1) : 0`. -/
def extraMonthlyNeeded (gap : ℚ) (monthsToRetire : ℕ) (monthlyAccum : ℚ) : ℚ :=
  if 0 < gap ∧ 0 < monthsToRetire then
    gap / max (annuityFactor monthlyAccum monthsToRetire) 1
  else 0

/-- The lump total read by variant A's `monthsToGoalAtCurrentPlan`: keys
are `Math.max(1, Math.floor(ls.month))` (no clamp above, floor of `0`
shifted up to key `1`). -/
def goalLumpAt (lumps : List Lump) (k : ℕ) : ℚ :=
  ((lumps.filter (fun ls => max 1 ⌊ls.month⌋ = (k : ℤ))).map Lump.amount).sum

/-- The wealth sequence stepped by variant A's `monthsToGoalAtCurrentPlan`
loop: checked before the update, so `goalWealth t` is the value compared
against the target at iteration `t`. -/
def goalWealth (currentWealth monthlySaving monthlyAccum : ℚ)
    (lumps : List Lump) : ℕ → ℚ
  | 0 => currentWealth
  | t + 1 =>
      goalWealth currentWealth monthlySaving monthlyAccum lumps t
          * (1 + monthlyAccum) + monthlySaving + goalLumpAt lumps (t + 1)

/-- The search loop of variant A's `monthsToGoalAtCurrentPlan`:
`for (t = 0; t <= cap; t++) { if (W >= targetWealth) return t; W = ... }`,
with the remaining iteration count as fuel; exhausted fuel is the
`return Infinity` fall-through. -/
def goalLoop (target monthlySaving monthlyAccum : ℚ) (lumps : List Lump) :
    ℚ → ℕ → ℕ → Option ℕ
  | _, _, 0 => none
  | W, t, fuel + 1 =>
      if target ≤ W then some t
      else goalLoop target monthlySaving monthlyAccum lumps
        (W * (1 + monthlyAccum) + monthlySaving + goalLumpAt lumps (t + 1)) (t + 1) fuel

/-- Variant A's `monthsToGoalAtCurrentPlan`: `if (targetWealth <= 0) return 0`,
then the capped loop with `cap = 1200` (iterations `t = 0 .. 1200`). -/
def monthsToGoalA (target currentWealth monthlySaving monthlyAccum : ℚ)
    (lumps : List Lump) : Option ℕ :=
  if target ≤ 0 then some 0
  else goalLoop target monthlySaving monthlyAccum lumps currentWealth 0 1201

/-- One step of the simulator inside `part_000`'s bisection solver: at
month `m` the single lump is added when `m === lump.month`, then the
accumulation update applies while `m < horizonM`, else the retirement-rate
update without withdrawal (`w = w * (1 + mRetire)`). -/
def simStep (monthlySave mAccum mRetire lumpValue lumpMonth : ℚ)
    (horizonM : ℕ) (m : ℕ) (w : ℚ) : ℚ :=
  let w1 := w + (if (m : ℚ) = lumpMonth then lumpValue else 0)
  if m < horizonM then w1 * (1 + mAccum) + monthlySave else w1 * (1 + mRetire)

/-- The post-update wealth after iteration `m` of `part_000`'s `simulate`
(the value it compares against the target). -/
def simWealth (currentWealth monthlySave mAccum mRetire lumpValue lumpMonth : ℚ)
    (horizonM : ℕ) : ℕ → ℚ
  | 0 => simStep monthlySave mAccum mRetire lumpValue lumpMonth horizonM 0 currentWealth
  | m + 1 =>
      simStep monthlySave mAccum mRetire lumpValue lumpMonth horizonM (m + 1)
        (simWealth currentWealth monthlySave mAccum mRetire lumpValue lumpMonth horizonM m)

/-- The loop of `part_000`'s `simulate(months)`: `for (m = 0; m <= months; m++)`;
the redundant early check `if (m === horizonM && w >= target) return m` is
subsumed by the general `if (w >= target) return m` that follows it and is
therefore merged into the single test here. -/
def simLoop (monthlySave mAccum mRetire lumpValue lumpMonth : ℚ)
    (horizonM : ℕ) (target : ℚ) : ℚ → ℕ → ℕ → Option ℕ
  | _, _, 0 => none
  | w, m, fuel + 1 =>
      let w1 := simStep monthlySave mAccum mRetire lumpValue lumpMonth horizonM m w
      if target ≤ w1 then some m
      else simLoop monthlySave mAccum mRetire lumpValue lumpMonth horizonM target w1
        (m + 1) fuel

/-- `part_000`'s `simulate(months)`: returns the first `m <= months` whose
post-update wealth reaches the target, `Infinity` (`none`) otherwise. -/
def simulate (currentWealth monthlySave mAccum mRetire lumpValue lumpMonth : ℚ)
    (horizonM : ℕ) (target : ℚ) (months : ℕ) : Option ℕ :=
  simLoop monthlySave mAccum mRetire lumpValue lumpMonth horizonM target
    currentWealth 0 (months + 1)

/-- The 40-iteration interval-halving driver of `part_000`'s
`monthsToGoalAtCurrentPlan`: `mid = Math.floor((lo+hi)/2)`;
`simulate(mid) === Infinity` moves `lo`, otherwise `hi`. -/
def bisect (sim : ℕ → Option ℕ) : ℕ → ℕ → ℕ → ℕ × ℕ
  | 0, lo, hi => (lo, hi)
  | fuel + 1, lo, hi =>
      let mid := (lo + hi) / 2
      match sim mid with
      | none => bisect sim fuel (mid + 1) hi
      | some _ => bisect sim fuel lo mid

/-- `part_000`'s `monthsToGoalAtCurrentPlan`: after 40 bisection steps on
`[0, (retireAge - age + 60) * 12]` it returns `hi` when `simulate(hi)` is
finite and `Infinity` otherwise (note: it returns `hi`, not the month
found by `simulate`). -/
def monthsToGoalBisect (currentWealth monthlySave mAccum mRetire lumpValue
    lumpMonth : ℚ) (horizonM : ℕ) (target : ℚ) (hi0 : ℕ) : Option ℕ :=
  let p := bisect
    (fun months => simulate currentWealth monthlySave mAccum mRetire lumpValue
      lumpMonth horizonM target months) 40 0 hi0
  match simulate currentWealth monthlySave mAccum mRetire lumpValue lumpMonth
      horizonM target p.2 with
  | none => none
  | some _ => some p.2

/-- Ordering on capped search results with `Infinity` (`none`) as the top
element. -/
def OptLe : Option ℕ → Option ℕ → Prop
  | _, none => True
  | none, some _ => False
  | some u, some v => u ≤ v

/-- A month-indexed wealth sequence is non-decreasing. -/
def MonotoneSeq (f : ℕ → ℚ) : Prop := ∀ t, f t ≤ f (t + 1)

/-- No month before `u` reaches the target in variant A's goal-search
wealth sequence. -/
def NoGoalCrossBefore (target currentWealth monthlySaving monthlyAccum : ℚ)
    (lumps : List Lump) (u : ℕ) : Prop :=
  ∀ v, v < u → goalWealth currentWealth monthlySaving monthlyAccum lumps v < target

/-- Every month up to and including `n` stays below the target in variant
A's goal-search wealth sequence. -/
def GoalBelowThrough (target currentWealth monthlySaving monthlyAccum : ℚ)
    (lumps : List Lump) (n : ℕ) : Prop :=
  ∀ v, v ≤ n → goalWealth currentWealth monthlySaving monthlyAccum lumps v < target

/-- No month before `u` reaches the target in `part_000`'s post-update
simulated wealth sequence. -/
def NoSimCrossBefore (currentWealth monthlySave mAccum mRetire lumpValue
    lumpMonth : ℚ) (horizonM : ℕ) (target : ℚ) (u : ℕ) : Prop :=
  ∀ v, v < u →
    simWealth currentWealth monthlySave mAccum mRetire lumpValue lumpMonth horizonM v
      < target

/-- Every month up to and including `n` stays below the target in
`part_000`'s post-update simulated wealth sequence. -/
def SimBelowThrough (currentWealth monthlySave mAccum mRetire lumpValue
    lumpMonth : ℚ) (horizonM : ℕ) (target : ℚ) (n : ℕ) : Prop :=
  ∀ v, v ≤ n →
    simWealth currentWealth monthlySave mAccum mRetire lumpValue lumpMonth horizonM v
      < target

/-- The rate converter, `monthlyRateFromRealAnnual`:
`Math.pow(1 + realAnnualPct / 100, 1 / 12) - 1`. -/
noncomputable def monthlyRateFromRealAnnual (realAnnualPct : ℝ) : ℝ :=
  (1 + realAnnualPct / 100) ^ ((1 : ℝ) / 12) - 1

/-- Variant A's target wealth (line 439):
`targetWealth = monthlySpend / Math.max(monthlyRetire, 1e-9)` with
`monthlyRetire = monthlyRateFromRealAnnual(retireRealReturn)`. -/
noncomputable def targetWealthA (monthlySpend retireRealReturnPct : ℝ) : ℝ :=
  monthlySpend / max (monthlyRateFromRealAnnual retireRealReturnPct) (1 / 10 ^ 9)

/-- Variant A's progress percentage (line 441):
`Math.max(0, Math.min(100, (100 * wealthAtRetire) / Math.max(targetWealth, 1)))`. -/
noncomputable def progressPct (wealthAtRetire targetWealth : ℝ) : ℝ :=
  max 0 (min 100 (100 * wealthAtRetire / max targetWealth 1))

/-- Variant A's `yearsOfRunway` (lines 455-470), with `none` standing for
the float `Infinity` the source returns. -/
noncomputable def yearsOfRunway (startingWealth annualSpend realReturnAnnual : ℝ) :
    Option ℝ :=
  if annualSpend ≤ 0 then none
  else if realReturnAnnual / 100 = 0 then some (startingWealth / annualSpend)
  else if 1 - startingWealth * (realReturnAnnual / 100) / annualSpend ≤ 0 then none
  else some (-Real.log (1 - startingWealth * (realReturnAnnual / 100) / annualSpend)
    / Real.log (1 + realReturnAnnual / 100))

/-! ### Helper lemmas about the lump schedules and projections -/

theorem lumpAt_cons (months : ℕ) (ls : Lump) (rest : List Lump) (k : ℕ) :
    lumpAt months (ls :: rest) k =
      (if clampedMonth months ls = (k : ℤ) then ls.amount else 0) + lumpAt months rest k := by
  unfold lumpAt
  by_cases h : clampedMonth months ls = (k : ℤ) <;>
    simp [List.filter_cons, h]

theorem goalLumpAt_cons (ls : Lump) (rest : List Lump) (k : ℕ) :
    goalLumpAt (ls :: rest) k =
      (if max 1 ⌊ls.month⌋ = (k : ℤ) then ls.amount else 0) + goalLumpAt rest k := by
  unfold goalLumpAt
  by_cases h : max 1 ⌊ls.month⌋ = (k : ℤ) <;>
    simp [List.filter_cons, h]

theorem clampedMonth_nonneg (months : ℕ) (ls : Lump) : 0 ≤ clampedMonth months ls :=
  le_max_left 0 _

theorem clampedMonth_le (months : ℕ) (ls : Lump) : clampedMonth months ls ≤ (months : ℤ) := by
  unfold clampedMonth
  have h : min (months : ℤ) ⌊ls.month⌋ ≤ (months : ℤ) := min_le_left _ _
  omega

/-- Each lump in the schedule contributes to the projected wealth exactly
once: removing it from the head of the list changes `retWealth` at month
`n` by its amount compounded from its clamped month to `n` — and by
nothing at all when its clamped month is `0` (it is filed under key `0`,
which the loop never reads). -/
theorem retWealth_cons (W0 s r : ℚ) (months : ℕ) (ls : Lump) (rest : List Lump) :
    ∀ n : ℕ, retWealth W0 s r months (ls :: rest) n =
      retWealth W0 s r months rest n +
        (if 1 ≤ (clampedMonth months ls).toNat ∧ (clampedMonth months ls).toNat ≤ n then
          ls.amount * (1 + r) ^ (n - (clampedMonth months ls).toNat) else 0) := by
  intro n
  have hc0 : 0 ≤ clampedMonth months ls := clampedMonth_nonneg months ls
  induction n with
  | zero =>
      rw [if_neg (by omega)]
      simp [retWealth]
  | succ n ih =>
      rw [retWealth, retWealth, ih, lumpAt_cons]
      have hkey : clampedMonth months ls = ((n + 1 : ℕ) : ℤ) ↔
          (clampedMonth months ls).toNat = n + 1 := by omega
      by_cases h1 : 1 ≤ (clampedMonth months ls).toNat
      · by_cases h2 : (clampedMonth months ls).toNat ≤ n
        · rw [if_pos (And.intro h1 h2), if_pos (And.intro h1 (by omega)),
            if_neg (show ¬clampedMonth months ls = ((n + 1 : ℕ) : ℤ) by omega),
            show n + 1 - (clampedMonth months ls).toNat
              = (n - (clampedMonth months ls).toNat) + 1 by omega, pow_succ]
          ring
        · by_cases h3 : (clampedMonth months ls).toNat = n + 1
          · rw [if_neg (by omega), if_pos (hkey.mpr h3), if_pos (And.intro h1 (by omega)),
              show n + 1 - (clampedMonth months ls).toNat = 0 by omega, pow_zero]
            ring
          · rw [if_neg (by omega), if_neg (fun hh => h3 (hkey.mp hh)), if_neg (by omega)]
            ring
      · rw [if_neg (by omega),
          if_neg (show ¬clampedMonth months ls = ((n + 1 : ℕ) : ℤ) by omega),
          if_neg (by omega)]
        ring

theorem lumpAt_perm (months : ℕ) {l1 l2 : List Lump} (h : l1.Perm l2) (k : ℕ) :
    lumpAt months l1 k = lumpAt months l2 k :=
  List.Perm.sum_eq ((h.filter _).map _)

theorem retWealth_perm (W0 s r : ℚ) (months : ℕ) {l1 l2 : List Lump}
    (h : l1.Perm l2) : ∀ n, retWealth W0 s r months l1 n = retWealth W0 s r months l2 n := by
  intro n
  induction n with
  | zero => rfl
  | succ n ih => rw [retWealth, retWealth, ih, lumpAt_perm months h]

/-- Up to the retirement month the full projection agrees with the pure
accumulation projection (same update, same lump schedule). -/
theorem fullWealth_eq_retWealth (W0 s spend r rr : ℚ) (months : ℕ)
    (lumps : List Lump) : ∀ t, t ≤ months →
    fullWealth W0 s spend r rr months lumps t = retWealth W0 s r months lumps t := by
  intro t
  induction t with
  | zero => intro _; rfl
  | succ t ih =>
      intro h
      rw [fullWealth, retWealth, if_pos (by omega), ih (by omega)]

/-- A lump filed under key `0` never changes the full projection either. -/
theorem fullWealth_cons_zero (W0 s spend r rr : ℚ) (months : ℕ) (ls : Lump)
    (rest : List Lump) (h : clampedMonth months ls = 0) :
    ∀ t, fullWealth W0 s spend r rr months (ls :: rest) t =
      fullWealth W0 s spend r rr months rest t := by
  intro t
  induction t with
  | zero => rfl
  | succ t ih =>
      simp only [fullWealth]
      rw [ih, lumpAt_cons,
        if_neg (show ¬clampedMonth months ls = ((t + 1 : ℕ) : ℤ) by omega)]
      by_cases ht : t < months
      · rw [if_pos ht, if_pos ht]
        ring
      · rw [if_neg ht, if_neg ht]

theorem retWealth_mono_saving (W0 r : ℚ) (months : ℕ) (lumps : List Lump)
    {s s' : ℚ} (hr : 0 ≤ 1 + r) (hs : s ≤ s') :
    ∀ n, retWealth W0 s r months lumps n ≤ retWealth W0 s' r months lumps n := by
  intro n
  induction n with
  | zero => exact le_refl _
  | succ n ih =>
      rw [retWealth, retWealth]
      exact add_le_add (add_le_add (mul_le_mul_of_nonneg_right ih hr) hs) (le_refl _)

theorem goalWealth_mono_saving (W0 r : ℚ) (lumps : List Lump)
    {s s' : ℚ} (hr : 0 ≤ 1 + r) (hs : s ≤ s') :
    ∀ n, goalWealth W0 s r lumps n ≤ goalWealth W0 s' r lumps n := by
  intro n
  induction n with
  | zero => exact le_refl _
  | succ n ih =>
      rw [goalWealth, goalWealth]
      exact add_le_add (add_le_add (mul_le_mul_of_nonneg_right ih hr) hs) (le_refl _)

/-! ### Characterization of the search loops -/

theorem goalLoop_sound (target s r : ℚ) (W0 : ℚ) (lumps : List Lump) :
    ∀ fuel t v, goalLoop target s r lumps (goalWealth W0 s r lumps t) t fuel = some v →
      t ≤ v ∧ v < t + fuel ∧ target ≤ goalWealth W0 s r lumps v ∧
        ∀ x, t ≤ x → x < v → goalWealth W0 s r lumps x < target := by
  intro fuel
  induction fuel with
  | zero => intro t v h; exact absurd h (by simp [goalLoop])
  | succ fuel ih =>
      intro t v h
      rw [goalLoop] at h
      by_cases hW : target ≤ goalWealth W0 s r lumps t
      · rw [if_pos hW] at h
        obtain rfl : t = v := Option.some.inj h
        exact ⟨le_refl t, by omega, hW, fun x hx1 hx2 => absurd hx1 (by omega)⟩
      · rw [if_neg hW] at h
        have hnext : goalWealth W0 s r lumps t * (1 + r) + s + goalLumpAt lumps (t + 1)
            = goalWealth W0 s r lumps (t + 1) := rfl
        rw [hnext] at h
        obtain ⟨h1, h2, h3, h4⟩ := ih (t + 1) v h
        refine ⟨by omega, by omega, h3, fun x hx1 hx2 => ?_⟩
        rcases Nat.eq_or_lt_of_le hx1 with rfl | hx
        · exact lt_of_not_le hW
        · exact h4 x (by omega) hx2

theorem goalLoop_none (target s r : ℚ) (W0 : ℚ) (lumps : List Lump) :
    ∀ fuel t, goalLoop target s r lumps (goalWealth W0 s r lumps t) t fuel = none →
      ∀ x, t ≤ x → x < t + fuel → goalWealth W0 s r lumps x < target := by
  intro fuel
  induction fuel with
  | zero => intro t _ x hx1 hx2; omega
  | succ fuel ih =>
      intro t h x hx1 hx2
      rw [goalLoop] at h
      by_cases hW : target ≤ goalWealth W0 s r lumps t
      · rw [if_pos hW] at h; exact absurd h (by simp)
      · rw [if_neg hW] at h
        have hnext : goalWealth W0 s r lumps t * (1 + r) + s + goalLumpAt lumps (t + 1)
            = goalWealth W0 s r lumps (t + 1) := rfl
        rw [hnext] at h
        rcases Nat.eq_or_lt_of_le hx1 with rfl | hx
        · exact lt_of_not_le hW
        · exact ih (t + 1) h x (by omega) (by omega)

theorem goalLoop_finds (target s r : ℚ) (W0 : ℚ) (lumps : List Lump) :
    ∀ fuel t u, t ≤ u → u < t + fuel → target ≤ goalWealth W0 s r lumps u →
      ∃ v, goalLoop target s r lumps (goalWealth W0 s r lumps t) t fuel = some v ∧ v ≤ u := by
  intro fuel
  induction fuel with
  | zero => intro t u h1 h2; omega
  | succ fuel ih =>
      intro t u h1 h2 h3
      rw [goalLoop]
      by_cases hW : target ≤ goalWealth W0 s r lumps t
      · exact ⟨t, by rw [if_pos hW], h1⟩
      · rw [if_neg hW]
        have hnext : goalWealth W0 s r lumps t * (1 + r) + s + goalLumpAt lumps (t + 1)
            = goalWealth W0 s r lumps (t + 1) := rfl
        rw [hnext]
        have htu : t ≠ u := fun hh => hW (hh ▸ h3)
        obtain ⟨v, hv1, hv2⟩ := ih (t + 1) u (by omega) (by omega) h3
        exact ⟨v, hv1, hv2⟩

theorem simWealth_succ (cW save mA mR lv lm : ℚ) (hz : ℕ) (m : ℕ) :
    simWealth cW save mA mR lv lm hz (m + 1)
      = simStep save mA mR lv lm hz (m + 1) (simWealth cW save mA mR lv lm hz m) := rfl

theorem simLoop_sound (cW save mA mR lv lm : ℚ) (hz : ℕ) (target : ℚ) :
    ∀ fuel m v,
      simLoop save mA mR lv lm hz target
          (simWealth cW save mA mR lv lm hz m) (m + 1) fuel = some v →
        m + 1 ≤ v ∧ v < m + 1 + fuel ∧ target ≤ simWealth cW save mA mR lv lm hz v ∧
          ∀ x, m + 1 ≤ x → x < v → simWealth cW save mA mR lv lm hz x < target := by
  intro fuel
  induction fuel with
  | zero => intro m v h; exact absurd h (by simp [simLoop])
  | succ fuel ih =>
      intro m v h
      rw [simLoop] at h
      rw [show simStep save mA mR lv lm hz (m + 1) (simWealth cW save mA mR lv lm hz m)
        = simWealth cW save mA mR lv lm hz (m + 1) from rfl] at h
      by_cases hW : target ≤ simWealth cW save mA mR lv lm hz (m + 1)
      · rw [if_pos hW] at h
        obtain rfl : m + 1 = v := Option.some.inj h
        exact ⟨le_refl _, by omega, hW, fun x hx1 hx2 => absurd hx1 (by omega)⟩
      · rw [if_neg hW] at h
        obtain ⟨h1, h2, h3, h4⟩ := ih (m + 1) v h
        refine ⟨by omega, by omega, h3, fun x hx1 hx2 => ?_⟩
        rcases Nat.eq_or_lt_of_le hx1 with rfl | hx
        · exact lt_of_not_le hW
        · exact h4 x (by omega) hx2

theorem simulate_sound (cW save mA mR lv lm : ℚ) (hz : ℕ) (target : ℚ)
    (months v : ℕ) (h : simulate cW save mA mR lv lm hz target months = some v) :
    v ≤ months ∧ target ≤ simWealth cW save mA mR lv lm hz v ∧
      ∀ x, x < v → simWealth cW save mA mR lv lm hz x < target := by
  unfold simulate at h
  rw [simLoop] at h
  rw [show simStep save mA mR lv lm hz 0 cW = simWealth cW save mA mR lv lm hz 0
    from rfl] at h
  by_cases hW : target ≤ simWealth cW save mA mR lv lm hz 0
  · rw [if_pos hW] at h
    obtain rfl : 0 = v := Option.some.inj h
    exact ⟨Nat.zero_le _, hW, fun x hx => absurd hx (by omega)⟩
  · rw [if_neg hW] at h
    obtain ⟨h1, h2, h3, h4⟩ := simLoop_sound cW save mA mR lv lm hz target months 0 v h
    refine ⟨by omega, h3, fun x hx => ?_⟩
    rcases Nat.eq_zero_or_pos x with rfl | hx0
    · exact lt_of_not_le hW
    · exact h4 x (by omega) hx

theorem simLoop_none (cW save mA mR lv lm : ℚ) (hz : ℕ) (target : ℚ) :
    ∀ fuel m,
      simLoop save mA mR lv lm hz target
          (simWealth cW save mA mR lv lm hz m) (m + 1) fuel = none →
        ∀ x, m + 1 ≤ x → x < m + 1 + fuel → simWealth cW save mA mR lv lm hz x < target := by
  intro fuel
  induction fuel with
  | zero => intro m _ x hx1 hx2; omega
  | succ fuel ih =>
      intro m h x hx1 hx2
      rw [simLoop] at h
      rw [show simStep save mA mR lv lm hz (m + 1) (simWealth cW save mA mR lv lm hz m)
        = simWealth cW save mA mR lv lm hz (m + 1) from rfl] at h
      by_cases hW : target ≤ simWealth cW save mA mR lv lm hz (m + 1)
      · rw [if_pos hW] at h; exact absurd h (by simp)
      · rw [if_neg hW] at h
        rcases Nat.eq_or_lt_of_le hx1 with rfl | hx
        · exact lt_of_not_le hW
        · exact ih (m + 1) h x (by omega) (by omega)

theorem simulate_none (cW save mA mR lv lm : ℚ) (hz : ℕ) (target : ℚ)
    (months : ℕ) (h : simulate cW save mA mR lv lm hz target months = none) :
    ∀ x, x ≤ months → simWealth cW save mA mR lv lm hz x < target := by
  unfold simulate at h
  rw [simLoop] at h
  rw [show simStep save mA mR lv lm hz 0 cW = simWealth cW save mA mR lv lm hz 0
    from rfl] at h
  by_cases hW : target ≤ simWealth cW save mA mR lv lm hz 0
  · rw [if_pos hW] at h; exact absurd h (by simp)
  · rw [if_neg hW] at h
    intro x hx
    rcases Nat.eq_zero_or_pos x with rfl | hx0
    · exact lt_of_not_le hW
    · exact simLoop_none cW save mA mR lv lm hz target months 0 h x (by omega) (by omega)

theorem simulate_eq_zero (cW save mA mR lv lm : ℚ) (hz : ℕ) (target : ℚ)
    (months : ℕ) (h : target ≤ simWealth cW save mA mR lv lm hz 0) :
    simulate cW save mA mR lv lm hz target months = some 0 := by
  unfold simulate
  rw [simLoop]
  rw [show simStep save mA mR lv lm hz 0 cW = simWealth cW save mA mR lv lm hz 0
    from rfl, if_pos h]

theorem monthsToGoalA_sound (target W0 s r : ℚ) (lumps : List Lump) (u : ℕ)
    (ht : 0 < target) (h : monthsToGoalA target W0 s r lumps = some u) :
    u ≤ 1200 ∧ target ≤ goalWealth W0 s r lumps u ∧
      ∀ x, x < u → goalWealth W0 s r lumps x < target := by
  unfold monthsToGoalA at h
  rw [if_neg (not_le.mpr ht)] at h
  obtain ⟨h1, h2, h3, h4⟩ := goalLoop_sound target s r W0 lumps 1201 0 u h
  exact ⟨by omega, h3, fun x hx => h4 x (Nat.zero_le x) hx⟩

theorem monthsToGoalA_none (target W0 s r : ℚ) (lumps : List Lump)
    (ht : 0 < target) (h : monthsToGoalA target W0 s r lumps = none) :
    ∀ x, x ≤ 1200 → goalWealth W0 s r lumps x < target := by
  unfold monthsToGoalA at h
  rw [if_neg (not_le.mpr ht)] at h
  exact fun x hx => goalLoop_none target s r W0 lumps 1201 0 h x (Nat.zero_le x) (by omega)

theorem monthsToGoalA_finds (target W0 s r : ℚ) (lumps : List Lump) (u : ℕ)
    (ht : 0 < target) (hu : u ≤ 1200) (h : target ≤ goalWealth W0 s r lumps u) :
    ∃ v, monthsToGoalA target W0 s r lumps = some v ∧ v ≤ u := by
  unfold monthsToGoalA
  rw [if_neg (not_le.mpr ht)]
  exact goalLoop_finds target s r W0 lumps 1201 0 u (Nat.zero_le u) (by omega) h

/-- The direct search returns exactly the first crossing month. -/
theorem monthsToGoalA_eq_first (target W0 s r : ℚ) (lumps : List Lump) (u : ℕ)
    (ht : 0 < target) (hu : u ≤ 1200) (h : target ≤ goalWealth W0 s r lumps u)
    (hbelow : ∀ x, x < u → goalWealth W0 s r lumps x < target) :
    monthsToGoalA target W0 s r lumps = some u := by
  obtain ⟨v, hv1, hv2⟩ := monthsToGoalA_finds target W0 s r lumps u ht hu h
  obtain ⟨_, hv3, _⟩ := monthsToGoalA_sound target W0 s r lumps v ht hv1
  rcases Nat.eq_or_lt_of_le hv2 with rfl | hlt
  · exact hv1
  · exact absurd hv3 (not_le.mpr (hbelow v hlt))

theorem bisect_allSome (sim : ℕ → Option ℕ) (h : ∀ m, (sim m).isSome) :
    ∀ fuel hi, hi < 2 ^ fuel → bisect sim fuel 0 hi = (0, 0) := by
  intro fuel
  induction fuel with
  | zero =>
      intro hi hhi
      obtain rfl : hi = 0 := by simpa using Nat.lt_one_iff.mp hhi
      rfl
  | succ fuel ih =>
      intro hi hhi
      rw [bisect]
      obtain ⟨n, hn⟩ := Option.isSome_iff_exists.mp (h ((0 + hi) / 2))
      rw [hn]
      have hpow : 2 ^ (fuel + 1) = 2 * 2 ^ fuel := by ring
      exact ih ((0 + hi) / 2) (by omega)

theorem extraMonthlyNeeded_nonneg (gap : ℚ) (n : ℕ) (r : ℚ) :
    0 ≤ extraMonthlyNeeded gap n r := by
  unfold extraMonthlyNeeded
  split_ifs with h
  · exact div_nonneg (le_of_lt h.1) (le_trans zero_le_one (le_max_right _ 1))
  · exact le_refl 0

theorem extraMonthlyNeeded_mono_gap {g1 g2 : ℚ} (n : ℕ) (r : ℚ) (h : g1 ≤ g2) :
    extraMonthlyNeeded g1 n r ≤ extraMonthlyNeeded g2 n r := by
  unfold extraMonthlyNeeded
  have hD : (0 : ℚ) < max (annuityFactor r n) 1 :=
    lt_of_lt_of_le zero_lt_one (le_max_right _ 1)
  split_ifs with h1 h2 h2
  · exact (div_le_div_right hD).mpr h
  · exact absurd ⟨lt_of_lt_of_le h1.1 h, h1.2⟩ h2
  · exact div_nonneg (le_of_lt h2.1) (le_of_lt hD)
  · exact le_refl 0

theorem OptLe_none (x : Option ℕ) : OptLe x none := by
  cases x <;> trivial

theorem monthsToGoalA_mono_saving (target W0 r : ℚ) (lumps : List Lump)
    {s s1 : ℚ} (hr : 0 ≤ 1 + r) (hs : s ≤ s1) :
    OptLe (monthsToGoalA target W0 s1 r lumps) (monthsToGoalA target W0 s r lumps) := by
  by_cases ht : target ≤ 0
  · unfold monthsToGoalA
    rw [if_pos ht, if_pos ht]
    exact Nat.le_refl 0
  · cases hA : monthsToGoalA target W0 s r lumps with
    | none => exact OptLe_none _
    | some u =>
        obtain ⟨hu, hWu, _⟩ :=
          monthsToGoalA_sound target W0 s r lumps u (not_le.mp ht) hA
        have hWu1 : target ≤ goalWealth W0 s1 r lumps u :=
          le_trans hWu (goalWealth_mono_saving W0 r lumps hr hs u)
        obtain ⟨v, hv1, hv2⟩ :=
          monthsToGoalA_finds target W0 s1 r lumps u (not_le.mp ht) hu hWu1
        rw [hv1]
        exact hv2

/-! ### Bounds on the rate converter -/

theorem rpow_twelfth_lt_of_lt_pow {a b : ℝ} (ha : 0 ≤ a) (hb : 0 ≤ b)
    (h : a < b ^ (12 : ℕ)) : a ^ ((1 : ℝ) / 12) < b := by
  have hpow : ((b ^ (12 : ℕ) : ℝ)) ^ ((1 : ℝ) / 12) = b := by
    rw [← Real.rpow_natCast b 12, ← Real.rpow_mul hb]
    norm_num
  calc a ^ ((1 : ℝ) / 12) < (b ^ (12 : ℕ)) ^ ((1 : ℝ) / 12) :=
        Real.rpow_lt_rpow ha h (by norm_num)
    _ = b := hpow

theorem lt_rpow_twelfth_of_pow_lt {a b : ℝ} (hb : 0 ≤ b)
    (h : b ^ (12 : ℕ) < a) : b < a ^ ((1 : ℝ) / 12) := by
  have hpow : ((b ^ (12 : ℕ) : ℝ)) ^ ((1 : ℝ) / 12) = b := by
    rw [← Real.rpow_natCast b 12, ← Real.rpow_mul hb]
    norm_num
  calc b = (b ^ (12 : ℕ)) ^ ((1 : ℝ) / 12) := hpow.symm
    _ < a ^ ((1 : ℝ) / 12) := Real.rpow_lt_rpow (pow_nonneg hb 12) h (by norm_num)

/-- The monthly rate for a 3.5 % annual real return lies strictly between
`1e-4` and `0.035/12`: in particular it is not the naive division by 12. -/
theorem monthlyRate35_bounds :
    1 / 10 ^ 4 < monthlyRateFromRealAnnual 3.5 ∧
      monthlyRateFromRealAnnual 3.5 < 7 / 2400 := by
  unfold monthlyRateFromRealAnnual
  constructor
  · have h := lt_rpow_twelfth_of_pow_lt (a := 1 + (3.5 : ℝ) / 100)
      (b := 1 + 1 / 10 ^ 4) (by norm_num) (by norm_num)
    linarith
  · have h := rpow_twelfth_lt_of_lt_pow (a := 1 + (3.5 : ℝ) / 100)
      (b := 1 + 7 / 2400) (by norm_num) (by norm_num) (by norm_num)
    linarith

theorem monthlyRate35_lt_monthlyRate5 :
    monthlyRateFromRealAnnual 3.5 < monthlyRateFromRealAnnual 5 := by
  unfold monthlyRateFromRealAnnual
  have h : ((1 : ℝ) + 3.5 / 100) ^ ((1 : ℝ) / 12)
      < ((1 : ℝ) + 5 / 100) ^ ((1 : ℝ) / 12) :=
    Real.rpow_lt_rpow (by norm_num) (by norm_num) (by norm_num)
  linarith

/-! ### Claim C1 -/

/-- Claim C1, counterexample: at the repository's default inputs
(`monthlySpend = 100000`, `swrPct = 3.5`, simple mode so
`retireRealReturnPct = swrPct`), variant A's engine target differs from
the claimed `(monthlySpend * 12) / (swrPct / 100)`, and the target does
depend on `retireRealReturnPct` (3.5 % and 5 % give different targets). -/
theorem C1_counterexample :
    targetWealthA 100000 3.5 ≠ 100000 * 12 / ((3.5 : ℝ) / 100) ∧
      targetWealthA 100000 3.5 ≠ targetWealthA 100000 5 := by
  obtain ⟨hlo, hhi⟩ := monthlyRate35_bounds
  have hpos : (0 : ℝ) < monthlyRateFromRealAnnual 3.5 := by
    have : (0 : ℝ) < 1 / 10 ^ 4 := by norm_num
    linarith
  have hmax35 : max (monthlyRateFromRealAnnual 3.5) (1 / 10 ^ 9)
      = monthlyRateFromRealAnnual 3.5 := by
    apply max_eq_left
    have : (1 : ℝ) / 10 ^ 9 < 1 / 10 ^ 4 := by norm_num
    linarith
  have h5pos : (0 : ℝ) < monthlyRateFromRealAnnual 5 :=
    lt_trans hpos monthlyRate35_lt_monthlyRate5
  have hmax5 : max (monthlyRateFromRealAnnual 5) (1 / 10 ^ 9)
      = monthlyRateFromRealAnnual 5 := by
    apply max_eq_left
    have h1 : (1 : ℝ) / 10 ^ 9 < 1 / 10 ^ 4 := by norm_num
    have := monthlyRate35_lt_monthlyRate5
    linarith
  constructor
  · have hgt : 100000 / ((7 : ℝ) / 2400)
        < 100000 / monthlyRateFromRealAnnual 3.5 :=
      div_lt_div_of_pos_left (by norm_num) hpos hhi
    have hval : 100000 * 12 / ((3.5 : ℝ) / 100) = 100000 / ((7 : ℝ) / 2400) := by
      norm_num
    unfold targetWealthA
    rw [hmax35, hval]
    exact (ne_of_lt hgt).symm
  · have hgt : 100000 / monthlyRateFromRealAnnual 5
        < 100000 / monthlyRateFromRealAnnual 3.5 :=
      div_lt_div_of_pos_left (by norm_num) hpos monthlyRate35_lt_monthlyRate5
    unfold targetWealthA
    rw [hmax35, hmax5]
    exact (ne_of_lt hgt).symm

/-- Claim C1, amended: only variant B's `targetWealthBySWR` satisfies the
claimed SWR formula — for every `monthlySpend` and every `swrPct > 0`,
`targetWealthBySWR(monthlySpend * 12, swrPct) = (monthlySpend * 12) / (swrPct / 100)`
and it does not read `retireRealReturnPct` at all; variant A (and
`part_000`) instead compute `monthlySpend / max(monthlyRate(retireRealReturnPct), ε)`,
which is a different number and depends on `retireRealReturnPct`. -/
theorem C1_amended (monthlySpend swrPct : ℚ) (hs : 0 < swrPct) :
    targetWealthBySWR (monthlySpend * 12) swrPct
      = monthlySpend * 12 / (swrPct / 100) := by
  unfold targetWealthBySWR
  rw [div_div_eq_mul_div]

/-- Witness for the amended claim C1 at `monthlySpend = 300`, `swrPct = 4`. -/
theorem C1_amended_witness :
    (0 : ℚ) < 4 ∧ targetWealthBySWR (300 * 12) 4 = 300 * 12 / (4 / 100) :=
  ⟨by norm_num, C1_amended 300 4 (by norm_num)⟩

/-! ### Claim C2 -/

/-- Claim C2, counterexample: the claim's iff fails for the `part_000`
variant cited in its sources.  At `wealthAtRetire = 10^11`,
`monthlyRetireRate = 0`, `monthlySpend = 1`, that variant's flag (a
target-reach test against `monthlySpend / max(rate, 1e-10)`) is true,
while the claimed yield test `wealthAtRetire * rate >= monthlySpend`
fails. -/
theorem C2_counterexample :
    hasPerpetuityV (10 ^ 11) (targetWealthP 1 0) ∧ ¬ ((1 : ℚ) ≤ 10 ^ 11 * 0) := by
  constructor
  · norm_num [hasPerpetuityV, targetWealthP]
  · norm_num

/-- Claim C2, amended: variant A's flag equals the yield test
`monthlySpend <= wealthAtRetire * monthlyRetireRate` for all inputs
(independently of the SWR target); the `part_000` variant's flag agrees
with the yield test only when the monthly retirement rate is at least its
`1e-10` clamp. -/
theorem C2_amended (w r s wv rv sv : ℚ) :
    (hasPerpetuity w r s ↔ s ≤ w * r) ∧
      (1 / 10 ^ 10 ≤ rv →
        (hasPerpetuityV wv (targetWealthP sv rv) ↔ sv ≤ wv * rv)) := by
  constructor
  · exact Iff.rfl
  · intro hrv
    have hrpos : (0 : ℚ) < rv := lt_of_lt_of_le (by norm_num) hrv
    unfold hasPerpetuityV targetWealthP
    rw [max_eq_left hrv, div_le_iff hrpos]

/-- Witness for the amended claim C2 at `wealthAtRetire = 10`,
`monthlyRetireRate = 1`, `monthlySpend = 5`. -/
theorem C2_amended_witness :
    (1 : ℚ) / 10 ^ 10 ≤ 1 ∧ (hasPerpetuityV 10 (targetWealthP 5 1) ↔ (5 : ℚ) ≤ 10 * 1) :=
  ⟨by norm_num, (C2_amended 0 0 0 10 1 5).2 (by norm_num)⟩

/-! ### Claim C3 -/

/-- Claim C3, counterexample: a lump with `month = 0` is NOT folded into
the starting wealth — with `currentWealth = 0`, no saving, zero rate,
one month to retire and a single lump `{month: 0, amount: 100}`,
`projectToRetirement` records `0` (not `0 + 100`) at month 0, and the
lump never enters the trajectory at all. -/
theorem C3_counterexample :
    projectToRetirement 0 0 1 0 [⟨0, 100⟩] = [(0, 0), (1, 0)] ∧ (0 : ℚ) ≠ 0 + 100 := by
  constructor
  · norm_num [projectToRetirement, retWealth, lumpAt, clampedMonth, List.filter,
      List.range_succ]
  · norm_num

/-- Claim C3, amended: a lump scheduled (after clamping) for calendar
month `t + 1` is added exactly once, during the update from month `t` to
month `t + 1`, in both `projectToRetirement` and `projectFullTo100`; but a
lump with clamped month `0` is NOT folded into the starting wealth — the
recorded month-0 point is exactly `currentWealth` and a key-0 lump
contributes nothing at any month (it is lost).  The last conjunct shows
each lump's exact one-time compounded contribution. -/
theorem C3_amended (W0 s r : ℚ) (months : ℕ) (lumps : List Lump) (t : ℕ)
    (spend rr : ℚ) (ls : Lump) (rest : List Lump) (n : ℕ) :
    retWealth W0 s r months lumps 0 = W0 ∧
      retWealth W0 s r months lumps (t + 1)
        = retWealth W0 s r months lumps t * (1 + r) + s + lumpAt months lumps (t + 1) ∧
      (t < months →
        fullWealth W0 s spend r rr months lumps (t + 1)
          = fullWealth W0 s spend r rr months lumps t * (1 + r) + s
              + lumpAt months lumps (t + 1)) ∧
      retWealth W0 s r months (ls :: rest) n
        = retWealth W0 s r months rest n +
            (if 1 ≤ (clampedMonth months ls).toNat ∧ (clampedMonth months ls).toNat ≤ n
              then ls.amount * (1 + r) ^ (n - (clampedMonth months ls).toNat) else 0) := by
  refine ⟨rfl, rfl, fun h => ?_, retWealth_cons W0 s r months ls rest n⟩
  simp only [fullWealth]
  rw [if_pos h]

/-- Witness for the amended claim C3, discharging the accumulation-regime
hypothesis at `t = 0 < months = 2`. -/
theorem C3_amended_witness :
    (0 : ℕ) < 2 ∧
      fullWealth 5 1 2 0 0 2 [] 1 = fullWealth 5 1 2 0 0 2 [] 0 * (1 + 0) + 1 + lumpAt 2 [] 1 :=
  ⟨by norm_num, (C3_amended 5 1 0 2 [] 0 2 0 ⟨0, 0⟩ [] 0).2.2.1 (by norm_num)⟩

/-! ### Claim C4 -/

/-- Claim C4 (confirmed): `yearsOfRunway` returns infinity when
`annualSpend <= 0`; `startingWealth / annualSpend` when the annual real
rate `r = realReturnAnnualPct / 100` is zero; infinity when
`ratio = 1 - startingWealth * r / annualSpend <= 0`; and
`-ln(ratio) / ln(1 + r)` otherwise. -/
theorem C4_runwayYears (w s p : ℝ) (hp : -100 < p) :
    (s ≤ 0 → yearsOfRunway w s p = none) ∧
      (0 < s → p / 100 = 0 → yearsOfRunway w s p = some (w / s)) ∧
      (0 < s → p / 100 ≠ 0 → 1 - w * (p / 100) / s ≤ 0 → yearsOfRunway w s p = none) ∧
      (0 < s → p / 100 ≠ 0 → 0 < 1 - w * (p / 100) / s →
        yearsOfRunway w s p
          = some (-Real.log (1 - w * (p / 100) / s) / Real.log (1 + p / 100))) := by
  refine ⟨fun h1 => ?_, fun h1 h2 => ?_, fun h1 h2 h3 => ?_, fun h1 h2 h3 => ?_⟩
  · unfold yearsOfRunway
    rw [if_pos h1]
  · unfold yearsOfRunway
    rw [if_neg (not_le.mpr h1), if_pos h2]
  · unfold yearsOfRunway
    rw [if_neg (not_le.mpr h1), if_neg h2, if_pos h3]
  · unfold yearsOfRunway
    rw [if_neg (not_le.mpr h1), if_neg h2, if_neg (not_le.mpr h3)]

/-- Witness for claim C4: zero rate, `startingWealth = 200`,
`annualSpend = 100` gives a finite runway of `200 / 100` years. -/
theorem C4_runwayYears_witness :
    (-100 : ℝ) < 0 ∧ yearsOfRunway 200 100 0 = some (200 / 100) :=
  ⟨by norm_num, (C4_runwayYears 200 100 0 (by norm_num)).2.1 (by norm_num) (by norm_num)⟩

/-! ### Claim C5 -/

/-- Claim C5, counterexample: on a monotonically non-decreasing plan
(`currentWealth = 0`, saving `100`, zero rates, target `100`, no lump —
the `part_000` lump has value `0`), variant A's direct forward simulation
returns month `1` while `part_000`'s bisection solver returns month `0`:
the two cited implementations do not agree. -/
theorem C5_counterexample :
    MonotoneSeq (goalWealth 0 100 0 []) ∧
      MonotoneSeq (simWealth 0 100 0 0 0 0 120) ∧
      monthsToGoalA 100 0 100 0 [] = some 1 ∧
      monthsToGoalBisect 0 100 0 0 0 0 120 100 840 = some 0 := by
  refine ⟨?_, ?_, ?_, ?_⟩
  · intro t
    rw [goalWealth]
    simp only [goalLumpAt, List.filter_nil, List.map_nil, List.sum_nil]
    nlinarith [sq_nonneg (goalWealth 0 100 0 [] t)]
  · intro t
    rw [simWealth_succ]
    unfold simStep
    simp only [ite_self, add_zero]
    by_cases h : t + 1 < 120
    · rw [if_pos h]
      nlinarith [sq_nonneg (simWealth 0 100 0 0 0 0 120 t)]
    · rw [if_neg h]
      nlinarith [sq_nonneg (simWealth 0 100 0 0 0 0 120 t)]
  · apply monthsToGoalA_eq_first 100 0 100 0 [] 1 (by norm_num) (by norm_num)
    · norm_num [goalWealth, goalLumpAt]
    · intro x hx
      obtain rfl : x = 0 := by omega
      norm_num [goalWealth]
  · have hsim : ∀ months, simulate 0 100 0 0 0 0 120 100 months = some 0 := by
      intro months
      apply simulate_eq_zero
      norm_num [simWealth, simStep]
    have hb := bisect_allSome (fun months => simulate 0 100 0 0 0 0 120 100 months)
      (fun m => by simp only []; rw [hsim m]; rfl) 40 840 (by norm_num)
    unfold monthsToGoalBisect
    rw [hb]
    simp [hsim]

/-- Claim C5, amended: the two implementations are not equivalent; each
returns the first month at which its OWN wealth sequence reaches the
target.  The direct simulation (variant A) returns the least `u <= 1200`
with pre-update wealth `goalWealth u >= target` (infinity when none
exists up to the cap); `part_000`'s `simulate(months)` returns the least
`m <= months` with post-update wealth `simWealth m >= target` (with its
single lump applied at month `m` itself, not `m + 1`), so the two answers
differ — by one month at the counterexample. -/
theorem C5_amended (target W0 s r : ℚ) (lumps : List Lump) (u : ℕ)
    (cW save mA mR lv lm : ℚ) (hz months m : ℕ) :
    (0 < target → monthsToGoalA target W0 s r lumps = some u →
      u ≤ 1200 ∧ target ≤ goalWealth W0 s r lumps u ∧
        NoGoalCrossBefore target W0 s r lumps u) ∧
      (0 < target → monthsToGoalA target W0 s r lumps = none →
        GoalBelowThrough target W0 s r lumps 1200) ∧
      (simulate cW save mA mR lv lm hz target months = some m →
        m ≤ months ∧ target ≤ simWealth cW save mA mR lv lm hz m ∧
          NoSimCrossBefore cW save mA mR lv lm hz target m) ∧
      (simulate cW save mA mR lv lm hz target months = none →
        SimBelowThrough cW save mA mR lv lm hz target months) := by
  refine ⟨fun ht h => ?_, fun ht h => ?_, fun h => ?_, fun h => ?_⟩
  · obtain ⟨h1, h2, h3⟩ := monthsToGoalA_sound target W0 s r lumps u ht h
    exact ⟨h1, h2, fun v hv => h3 v hv⟩
  · exact fun v hv => monthsToGoalA_none target W0 s r lumps ht h v hv
  · obtain ⟨h1, h2, h3⟩ := simulate_sound cW save mA mR lv lm hz target months m h
    exact ⟨h1, h2, fun v hv => h3 v hv⟩
  · exact fun v hv => simulate_none cW save mA mR lv lm hz target months h v hv

/-- Witness for the amended claim C5: the direct solver's answer at the
counterexample plan is month 1, and the theorem certifies it as the first
crossing of the pre-update sequence. -/
theorem C5_amended_witness :
    (0 : ℚ) < 100 ∧ monthsToGoalA 100 0 100 0 [] = some 1 ∧
      (1 ≤ 1200 ∧ (100 : ℚ) ≤ goalWealth 0 100 0 [] 1 ∧
        NoGoalCrossBefore 100 0 100 0 [] 1) := by
  have hA : monthsToGoalA 100 0 100 0 [] = some 1 := by
    apply monthsToGoalA_eq_first 100 0 100 0 [] 1 (by norm_num) (by norm_num)
    · norm_num [goalWealth, goalLumpAt]
    · intro x hx
      obtain rfl : x = 0 := by omega
      norm_num [goalWealth]
  exact ⟨by norm_num, hA,
    (C5_amended 100 0 100 0 [] 1 0 0 0 0 0 0 0 0 0).1 (by norm_num) hA⟩

/-! ### Claim C6 -/

/-- Claim C6, counterexample: with `swrPct = -100` (simple mode, so
`retireRealReturnPct = -100` too) and `monthlySpend = 1`, variant A's
target is the finite value `10^9` (the monthly rate is floored at `1e-9`),
not positive infinity, and with `wealthAtRetire = 2 * 10^9` the progress
percentage is `100`, not `0`. -/
theorem C6_counterexample :
    targetWealthA 1 (-100) = 10 ^ 9 ∧
      progressPct (2 * 10 ^ 9) (targetWealthA 1 (-100)) = 100 ∧
      progressPct (2 * 10 ^ 9) (targetWealthA 1 (-100)) ≠ 0 := by
  have hrate : monthlyRateFromRealAnnual (-100) = -1 := by
    unfold monthlyRateFromRealAnnual
    rw [show (1 : ℝ) + -100 / 100 = 0 by norm_num,
      Real.zero_rpow (by norm_num : ((1 : ℝ) / 12) ≠ 0)]
    norm_num
  have htarget : targetWealthA 1 (-100) = 10 ^ 9 := by
    unfold targetWealthA
    rw [hrate, max_eq_right (by norm_num : (-1 : ℝ) ≤ 1 / 10 ^ 9)]
    norm_num
  have hprog : progressPct (2 * 10 ^ 9) (targetWealthA 1 (-100)) = 100 := by
    rw [htarget]
    unfold progressPct
    rw [max_eq_left (by norm_num : (1 : ℝ) ≤ 10 ^ 9)]
    rw [show (100 : ℝ) * (2 * 10 ^ 9) / 10 ^ 9 = 200 by norm_num]
    rw [min_eq_left (by norm_num : (100 : ℝ) ≤ 200)]
    rw [max_eq_right (by norm_num : (0 : ℝ) ≤ 100)]
  exact ⟨htarget, hprog, by rw [hprog]; norm_num⟩

/-- Claim C6, amended: for `swrPct <= 0` (simple mode feeds it to the
rate converter as `retireRealReturnPct`, here additionally bounded below
by `-100` so the real-valued power is the number the source computes),
variant A represents the target as the finite value `monthlySpend * 10^9`
— the `1e-9` floor on the monthly rate, not positive infinity — and the
progress percentage is always clamped into `[0, 100]` (though not
necessarily `0`). -/
theorem C6_amended (spend p w t : ℝ) (h1 : -100 ≤ p) (h2 : p ≤ 0) :
    targetWealthA spend p = spend * 10 ^ 9 ∧
      0 ≤ progressPct w t ∧ progressPct w t ≤ 100 := by
  have hrate : monthlyRateFromRealAnnual p ≤ 0 := by
    unfold monthlyRateFromRealAnnual
    have hle : (1 + p / 100) ^ ((1 : ℝ) / 12) ≤ 1 :=
      Real.rpow_le_one (by linarith) (by linarith) (by norm_num)
    linarith
  refine ⟨?_, le_max_left 0 _, max_le (by norm_num) (min_le_left 100 _)⟩
  unfold targetWealthA
  rw [max_eq_right (le_trans hrate (by norm_num)), div_div_eq_mul_div, div_one]

/-- Witness for the amended claim C6 at `monthlySpend = 7`, `swrPct = -100`. -/
theorem C6_amended_witness :
    (-100 : ℝ) ≤ -100 ∧ (-100 : ℝ) ≤ 0 ∧
      (targetWealthA 7 (-100) = 7 * 10 ^ 9 ∧
        0 ≤ progressPct 3 2 ∧ progressPct 3 2 ≤ 100) :=
  ⟨by norm_num, by norm_num, C6_amended 7 (-100) 3 2 (by norm_num) (by norm_num)⟩

/-! ### Claim C7 -/

/-- Claim C7, counterexample: with `monthlySpend = 0` but
`wealthAtRetire = -1` and `monthlyRetireRate = 1`, variant A's
`hasPerpetuity` is false (the yield `-1` does not cover spend `0`),
contradicting the claim that it is true for every `wealthAtRetire`. -/
theorem C7_counterexample : ¬ hasPerpetuity (-1) 1 0 := by
  norm_num [hasPerpetuity, sustainableMonthlySWR]

/-- Claim C7, amended: with `monthlySpend = 0` the runway (called with
`annualSpend = 0 * 12`) is always infinite, and `hasPerpetuity` is true
whenever `wealthAtRetire * monthlyRetireRate >= 0` — in particular for
all non-negative wealth and rates — but not for negative wealth with a
positive rate. -/
theorem C7_amended (w p : ℝ) (wv rv : ℚ) (h1 : 0 ≤ wv) (h2 : 0 ≤ rv) :
    yearsOfRunway w (0 * 12) p = none ∧ hasPerpetuity wv rv 0 := by
  constructor
  · unfold yearsOfRunway
    rw [if_pos (by norm_num : (0 : ℝ) * 12 ≤ 0)]
  · exact mul_nonneg h1 h2

/-- Witness for the amended claim C7 at `wealthAtRetire = 2`,
`monthlyRetireRate = 1`. -/
theorem C7_amended_witness :
    (0 : ℚ) ≤ 2 ∧ (0 : ℚ) ≤ 1 ∧
      (yearsOfRunway 5 (0 * 12) 3 = none ∧ hasPerpetuity 2 1 0) :=
  ⟨by norm_num, by norm_num, C7_amended 5 3 2 1 (by norm_num) (by norm_num)⟩

/-! ### Claim C8 -/

/-- Claim C8 (confirmed): holding all other inputs fixed, with monthly
accumulation rate greater than `-1`, raising `monthlySaving` never
decreases `wealthAtRetire`, never increases `extraMonthlyNeeded`
(computed on the gap `targetWealth - wealthAtRetire`), and never
increases `monthsToGoal` (with infinity as the top element). -/
theorem C8_monotone_saving (W0 target r : ℚ) (months : ℕ) (lumps : List Lump)
    (s s1 : ℚ) (hr : -1 < r) (hs : s ≤ s1) :
    wealthAtRetire W0 s r months lumps ≤ wealthAtRetire W0 s1 r months lumps ∧
      extraMonthlyNeeded (target - wealthAtRetire W0 s1 r months lumps) months r
        ≤ extraMonthlyNeeded (target - wealthAtRetire W0 s r months lumps) months r ∧
      OptLe (monthsToGoalA target W0 s1 r lumps) (monthsToGoalA target W0 s r lumps) := by
  have hr0 : (0 : ℚ) ≤ 1 + r := by linarith
  have hW : wealthAtRetire W0 s r months lumps ≤ wealthAtRetire W0 s1 r months lumps :=
    retWealth_mono_saving W0 r months lumps hr0 hs months
  refine ⟨hW, ?_, monthsToGoalA_mono_saving target W0 r lumps hr0 hs⟩
  exact extraMonthlyNeeded_mono_gap months r (by linarith)

/-- Witness for claim C8 at a concrete plan (`monthlySaving` raised from
`0` to `1`, zero rate, one month horizon, target `-1`). -/
theorem C8_monotone_saving_witness :
    (-1 : ℚ) < 0 ∧ (0 : ℚ) ≤ 1 ∧
      (wealthAtRetire 0 0 0 1 [] ≤ wealthAtRetire 0 1 0 1 [] ∧
        extraMonthlyNeeded (-1 - wealthAtRetire 0 1 0 1 []) 1 0
          ≤ extraMonthlyNeeded (-1 - wealthAtRetire 0 0 0 1 []) 1 0 ∧
        OptLe (monthsToGoalA (-1) 0 1 0 []) (monthsToGoalA (-1) 0 0 0 [])) :=
  ⟨by norm_num, by norm_num,
    C8_monotone_saving 0 (-1) 0 1 [] 0 1 (by norm_num) (by norm_num)⟩

/-! ### Claim C9 -/

/-- Claim C9 (confirmed): a lump whose floored month exceeds
`monthsToRetire >= 1` is clamped to key `monthsToRetire`, so it is added
during the final accumulation update (from month `monthsToRetire - 1` to
`monthsToRetire`): the wealth at retirement exceeds the same projection
without that lump by exactly its amount, and `projectFullTo100` agrees
with `projectToRetirement` at the retirement month, so the lump is
neither dropped nor deferred past retirement. -/
theorem C9_late_lump_clamped (W0 s r : ℚ) (months : ℕ) (lumps : List Lump)
    (ls : Lump) (spend rr : ℚ) (h1 : 1 ≤ months) (h2 : ls ∈ lumps)
    (h3 : (months : ℤ) < ⌊ls.month⌋) :
    clampedMonth months ls = months ∧
      retWealth W0 s r months lumps months
        = retWealth W0 s r months (lumps.erase ls) months + ls.amount ∧
      fullWealth W0 s spend r rr months lumps months
        = retWealth W0 s r months lumps months := by
  have hc : clampedMonth months ls = (months : ℤ) := by
    unfold clampedMonth
    omega
  refine ⟨hc, ?_, fullWealth_eq_retWealth W0 s spend r rr months lumps months le_rfl⟩
  rw [retWealth_perm W0 s r months (List.perm_cons_erase h2) months,
    retWealth_cons, if_pos (And.intro (by omega) (by omega)),
    show months - (clampedMonth months ls).toNat = 0 by omega, pow_zero, mul_one]

/-- Witness for claim C9: a lump dated month `2` with a one-month horizon
is clamped to month `1` and lands in the retirement wealth. -/
theorem C9_late_lump_clamped_witness :
    1 ≤ 1 ∧ (⟨2, 50⟩ : Lump) ∈ [(⟨2, 50⟩ : Lump)] ∧
      ((1 : ℕ) : ℤ) < ⌊(⟨2, 50⟩ : Lump).month⌋ ∧
      (clampedMonth 1 ⟨2, 50⟩ = 1 ∧
        retWealth 3 0 0 1 [⟨2, 50⟩] 1 = retWealth 3 0 0 1 ([⟨2, 50⟩].erase ⟨2, 50⟩) 1 + 50 ∧
        fullWealth 3 0 7 0 0 1 [⟨2, 50⟩] 1 = retWealth 3 0 0 1 [⟨2, 50⟩] 1) :=
  ⟨le_rfl, List.mem_singleton.mpr rfl, by norm_num,
    C9_late_lump_clamped 3 0 0 1 [⟨2, 50⟩] ⟨2, 50⟩ 7 0 le_rfl
      (List.mem_singleton.mpr rfl) (by norm_num)⟩

/-! ### Claim C10 -/

/-- Claim C10 (confirmed): a lump with floored month `0` is never added
by `projectToRetirement` or `projectFullTo100` (its key `0` is never
read), while `monthsToGoalAtCurrentPlan` re-keys it to
`max(1, floor(month)) = 1` and adds it during the update from month `0`
to month `1`; consequently the goal-search wealth sequence can differ
from the projected trajectory at the same index, as the final concrete
conjunct exhibits (`100` versus `0` at month `1`). -/
theorem C10_month_zero_lump (W0 s r : ℚ) (months : ℕ) (ls : Lump)
    (rest : List Lump) (n : ℕ) (spend rr : ℚ) (h : ⌊ls.month⌋ = 0) :
    retWealth W0 s r months (ls :: rest) n = retWealth W0 s r months rest n ∧
      fullWealth W0 s spend r rr months (ls :: rest) n
        = fullWealth W0 s spend r rr months rest n ∧
      max 1 ⌊ls.month⌋ = 1 ∧
      goalLumpAt (ls :: rest) 1 = ls.amount + goalLumpAt rest 1 ∧
      goalWealth W0 s r (ls :: rest) 1
        = W0 * (1 + r) + s + goalLumpAt (ls :: rest) 1 ∧
      goalWealth 0 0 0 [⟨0, 100⟩] 1 = 100 ∧ retWealth 0 0 0 1 [⟨0, 100⟩] 1 = 0 := by
  have hc : clampedMonth months ls = 0 := by
    unfold clampedMonth
    omega
  refine ⟨?_, fullWealth_cons_zero W0 s spend r rr months ls rest hc n, ?_, ?_, rfl, ?_, ?_⟩
  · rw [retWealth_cons, if_neg (by omega), add_zero]
  · rw [h]
    norm_num
  · rw [goalLumpAt_cons, if_pos (by rw [h]; norm_num)]
  · norm_num [goalWealth, goalLumpAt, List.filter]
  · norm_num [retWealth, lumpAt, clampedMonth, List.filter]

/-- Witness for claim C10 with the lump `{month: 0, amount: 7}`. -/
theorem C10_month_zero_lump_witness :
    ⌊(⟨0, 7⟩ : Lump).month⌋ = 0 ∧
      (retWealth 4 2 0 3 [⟨0, 7⟩] 2 = retWealth 4 2 0 3 [] 2 ∧
        fullWealth 4 2 5 0 0 3 [⟨0, 7⟩] 2 = fullWealth 4 2 5 0 0 3 [] 2 ∧
        max 1 ⌊(⟨0, 7⟩ : Lump).month⌋ = 1 ∧
        goalLumpAt [⟨0, 7⟩] 1 = (⟨0, 7⟩ : Lump).amount + goalLumpAt [] 1 ∧
        goalWealth 4 2 0 [⟨0, 7⟩] 1 = 4 * (1 + 0) + 2 + goalLumpAt [⟨0, 7⟩] 1 ∧
        goalWealth 0 0 0 [⟨0, 100⟩] 1 = 100 ∧ retWealth 0 0 0 1 [⟨0, 100⟩] 1 = 0) :=
  ⟨by norm_num, C10_month_zero_lump 4 2 0 3 ⟨0, 7⟩ [] 2 5 0 (by norm_num)⟩
